import Mathlib

/-!
Verification of the tolerant structured-output extraction pipeline of
the tathyaseva repository (src/agents.py).  The Python functions
`_extract_json`, `run_fact_check`, `generate_content` and
`generate_factual_content` are shallowly embedded as total Lean
functions over `List Char`; `json.loads` is modelled by a fuel-bounded
recursive-descent parser following the JSON grammar accepted by the
Python `json` module; Python numbers are modelled by `PyNum`, keeping
the int/float distinction and the nan/inf special values, with float
values represented exactly as rationals.
-/

/-- Characters removed by Python `str.strip()` (the whitespace set of
`str.isspace` restricted to the code points that can realistically occur). -/
def isPySpace (c : Char) : Bool :=
  c = ' ' || c = '\t' || c = '\n' || c = '\r' ||
  c = Char.ofNat 11 || c = Char.ofNat 12 ||
  c = Char.ofNat 28 || c = Char.ofNat 29 || c = Char.ofNat 30 || c = Char.ofNat 31 ||
  c = Char.ofNat 133 || c = Char.ofNat 160

/-- JSON whitespace as accepted by the Python `json` scanner. -/
def isJsonWs (c : Char) : Bool :=
  c = ' ' || c = '\t' || c = '\n' || c = '\r'

/-- Skip JSON whitespace. -/
def skipWs (cs : List Char) : List Char := cs.dropWhile isJsonWs

/-- Model of Python `str.strip()`: drop trailing then leading whitespace. -/
def pyStrip (cs : List Char) : List Char :=
  ((cs.reverse.dropWhile isPySpace).reverse).dropWhile isPySpace

/-- Model of Python `str.find(c)`: index of the first occurrence,
`none` standing for the -1 returned when the character is absent. -/
def listFind : List Char → Char → Option Nat
  | [], _ => none
  | a :: l, c => if a = c then some 0 else (listFind l c).map (· + 1)

/-- Model of Python `str.rfind(c)`: index of the last occurrence,
`none` standing for -1. -/
def listRfind (cs : List Char) (c : Char) : Option Nat :=
  (listFind cs.reverse c).map (fun i => cs.length - 1 - i)

/-- Number of whitespace-separated tokens, as counted by
`len(s.split())` in Python.  The boolean records whether we are inside
a token. -/
def pySplitCountAux : List Char → Bool → Nat
  | [], _ => 0
  | c :: r, inw =>
    if isPySpace c then pySplitCountAux r false
    else (if inw then 0 else 1) + pySplitCountAux r true

/-- Model of `len(s.split())`. -/
def pySplitCount (cs : List Char) : Nat := pySplitCountAux cs false

/-- Whether `sub` occurs as a contiguous sublist of `l`. -/
def containsSub : List Char → List Char → Bool
  | sub, [] => sub.isEmpty
  | sub, c :: t => sub.isPrefixOf (c :: t) || containsSub sub t

/-- A Python number value: an int, a (finite) float modelled exactly as a
rational, or one of the special float values nan, inf, -inf. -/
inductive PyNum where
  | int (n : ℤ)
  | float (q : ℚ)
  | nan
  | inf
  | ninf
deriving DecidableEq

/-- Python `<` on numbers (mixed int/float comparison is exact;
comparisons with nan are always false). -/
def pyLt : PyNum → PyNum → Bool
  | .nan, _ => false
  | _, .nan => false
  | .ninf, .ninf => false
  | .ninf, _ => true
  | _, .ninf => false
  | .inf, _ => false
  | _, .inf => true
  | .int a, .int b => decide ((a : ℚ) < (b : ℚ))
  | .int a, .float b => decide ((a : ℚ) < b)
  | .float a, .int b => decide (a < (b : ℚ))
  | .float a, .float b => decide (a < b)

/-- Python `min(a, b)`: returns `b` exactly when `b < a`, otherwise the
first argument (so ties keep the first argument and its type). -/
def pyMin (a b : PyNum) : PyNum := if pyLt b a then b else a

/-- Python `max(a, b)`: returns `b` exactly when `a < b`, otherwise the
first argument. -/
def pyMax (a b : PyNum) : PyNum := if pyLt a b then b else a

/-- The clamp `max(0, min(100, score))` from `run_fact_check`
(src/agents.py line 264), with the Python int literals 0 and 100. -/
def clampScore (x : PyNum) : PyNum := pyMax (.int 0) (pyMin (.int 100) x)

/-- The conversion performed by `float(x)` on a number that is already a
Python number: ints become floats, floats (including the special
values) are unchanged. -/
def pyNumFloatify : PyNum → PyNum
  | .int n => .float (n : ℚ)
  | x => x

/-- The finite rational value of a `PyNum`, when it has one. -/
def pyNumQ : PyNum → Option ℚ
  | .int n => some (n : ℚ)
  | .float q => some q
  | _ => none

/-- Strip trailing `0` characters, keeping at least one digit. -/
def stripTrailZeros (l : List Char) : List Char :=
  let r := (l.reverse.dropWhile (· = '0')).reverse
  if r.isEmpty then ['0'] else r

/-- Decimal rendering of a nonnegative rational whose denominator divides
a power of ten, as Python renders the corresponding float (`repr`):
`50 ↦ "50.0"`, `85/2 ↦ "42.5"`.  Rationals that are not decimal
fractions cannot arise from Python floats; they are rendered as a
fraction. -/
def decRepr (q : ℚ) : String :=
  let den := q.den
  let p := (10 : ℕ) ^ den
  if p % den = 0 then
    let m := q.num.toNat * (p / den)
    let ds := (toString m).toList
    let ds := if ds.length ≤ den then List.replicate (den + 1 - ds.length) '0' ++ ds else ds
    let ip := ds.take (ds.length - den)
    let fp := stripTrailZeros (ds.drop (ds.length - den))
    (ip ++ '.' :: fp).asString
  else
    toString q.num ++ "/" ++ toString q.den

/-- Python `repr`/`str` of a float value. -/
def pyFloatRepr (q : ℚ) : String :=
  if q < 0 then "-" ++ decRepr (-q) else decRepr q

/-- Python `str` of a `PyNum` (as interpolated by an f-string). -/
def pyNumRepr : PyNum → String
  | .int n => toString n
  | .float q => pyFloatRepr q
  | .nan => "nan"
  | .inf => "inf"
  | .ninf => "-inf"

/-- A JSON value as produced by `json.loads`: numbers keep the Python
int/float distinction through `PyNum`, objects are key/value lists in
source order (a later duplicate key overrides an earlier one, which the
lookup functions below account for). -/
inductive JValue where
  | null
  | bool (b : Bool)
  | num (x : PyNum)
  | str (s : String)
  | arr (xs : List JValue)
  | obj (kvs : List (String × JValue))

/-- Lookup in an object as a Python dict built by `json.loads`: the
value of the last occurrence of the key wins. -/
def lookupLast (kvs : List (String × JValue)) (k : String) : Option JValue :=
  match kvs with
  | [] => none
  | (k', v) :: rest =>
    match lookupLast rest k with
    | some r => some r
    | none => if k' = k then some v else none

/-- Object member access when the value is an object; `none` otherwise.
Used to phrase hypotheses about parsed objects. -/
def jsonGet (v : JValue) (k : String) : Option JValue :=
  match v with
  | .obj kvs => lookupLast kvs k
  | _ => none

/-- Python type name, for TypeError-style messages. -/
def pyTypeName : JValue → String
  | .null => "NoneType"
  | .bool _ => "bool"
  | .num (.int _) => "int"
  | .num _ => "float"
  | .str _ => "str"
  | .arr _ => "list"
  | .obj _ => "dict"

/-- Python membership test `k in v` (raising TypeError, modelled by
`Except.error`, on non-container values). -/
def pyIn (k : String) (v : JValue) : Except String Bool :=
  match v with
  | .obj kvs => .ok ((lookupLast kvs k).isSome)
  | .arr xs => .ok (xs.any (fun x => match x with | .str s => s = k | _ => false))
  | .str s => .ok (containsSub k.toList s.toList)
  | _ => .error ("argument of type " ++ pyTypeName v ++ " is not iterable")

/-- Python subscript `v[k]` with a string key: dict lookup (KeyError when
absent, whose `str` is the quoted key) or a TypeError on other values. -/
def getItem (v : JValue) (k : String) : Except String JValue :=
  match v with
  | .obj kvs =>
    match lookupLast kvs k with
    | some x => .ok x
    | none => .error ((Char.ofNat 39).toString ++ k ++ (Char.ofNat 39).toString)
  | _ => .error (pyTypeName v ++ " indices must be integers")

/-- Python `v.get(k, d)` on a dict; AttributeError on non-dict values. -/
def pyGetE (v : JValue) (k : String) (d : JValue) : Except String JValue :=
  match v with
  | .obj kvs => .ok ((lookupLast kvs k).getD d)
  | _ => .error (pyTypeName v ++ " object has no attribute get")

/-- Python truthiness of a JSON value. -/
def pyFalsy : JValue → Bool
  | .null => true
  | .bool b => !b
  | .num (.int n) => n = 0
  | .num (.float q) => q = 0
  | .num _ => false
  | .str s => s = ""
  | .arr xs => xs.isEmpty
  | .obj kvs => kvs.isEmpty

/-- Digits of a numeral, most significant first, to a natural number. -/
def digitsToNat (ds : List Char) : Nat :=
  ds.foldl (fun a c => 10 * a + (c.toNat - 48)) 0

/-- Model of Python `float(s)` on a string: optional sign, then
inf/infinity/nan (case-insensitive) or a decimal literal with optional
fractional part and exponent. -/
def pyFloatOfStr (s : String) : Except String PyNum :=
  let t := pyStrip s.toList
  let (neg, t1) :=
    match t with
    | '-' :: r => (true, r)
    | '+' :: r => (false, r)
    | _ => (false, t)
  let low := t1.map Char.toLower
  if low = "inf".toList || low = "infinity".toList then
    .ok (if neg then .ninf else .inf)
  else if low = "nan".toList then
    .ok .nan
  else
    let ip := t1.takeWhile Char.isDigit
    let r1 := t1.drop ip.length
    let (fp, r2) :=
      match r1 with
      | '.' :: rf => (rf.takeWhile Char.isDigit, rf.drop (rf.takeWhile Char.isDigit).length)
      | _ => ([], r1)
    let (expOk, ex, r3) :=
      match r2 with
      | e :: re =>
        if e = 'e' || e = 'E' then
          let (esgn, re1) :=
            match re with
            | '+' :: x => ((1 : ℤ), x)
            | '-' :: x => ((-1 : ℤ), x)
            | _ => ((1 : ℤ), re)
          let ds := re1.takeWhile Char.isDigit
          if ds.isEmpty then (false, (0 : ℤ), r2)
          else (true, esgn * (digitsToNat ds : ℤ), re1.drop ds.length)
        else (true, (0 : ℤ), r2)
      | [] => (true, (0 : ℤ), r2)
    if ip.isEmpty && fp.isEmpty then
      .error ("could not convert string to float: " ++ s)
    else if !expOk || !r3.isEmpty then
      .error ("could not convert string to float: " ++ s)
    else
      let mant : ℕ := digitsToNat (ip ++ fp)
      let shift : ℤ := ex - fp.length
      let v : ℚ :=
        if 0 ≤ shift then mkRat ((mant : ℤ) * ((10 ^ shift.toNat : ℕ) : ℤ)) 1
        else mkRat (mant : ℤ) ((10 : ℕ) ^ (-shift).toNat)
      .ok (.float (if neg then -v else v))

/-- Model of the Python builtin `float(x)` applied to a JSON value, as in
`float(parsed_result["score"])` (src/agents.py line 263). -/
def pyFloatFn : JValue → Except String PyNum
  | .num x => .ok (pyNumFloatify x)
  | .bool b => .ok (.float (if b then 1 else 0))
  | .str s => pyFloatOfStr s
  | v => .error ("float() argument must be a string or a real number, not " ++ pyTypeName v)

/-- Hexadecimal digit value. -/
def hexVal (c : Char) : Option Nat :=
  if '0' ≤ c && c ≤ '9' then some (c.toNat - 48)
  else if 'a' ≤ c && c ≤ 'f' then some (c.toNat - 87)
  else if 'A' ≤ c && c ≤ 'F' then some (c.toNat - 55)
  else none

/-- Short escape characters of JSON strings. -/
def escChar (c : Char) : Option Char :=
  if c = '"' then some '"'
  else if c = '\\' then some '\\'
  else if c = '/' then some '/'
  else if c = 'b' then some (Char.ofNat 8)
  else if c = 'f' then some (Char.ofNat 12)
  else if c = 'n' then some '\n'
  else if c = 'r' then some '\r'
  else if c = 't' then some '\t'
  else none

/-- Body of a JSON string, after the opening quote: returns the decoded
characters and the rest after the closing quote.  Strict mode: raw
control characters are rejected, as by `json.loads`. -/
def parseStringBody : List Char → Except String (List Char × List Char)
  | [] => .error "Unterminated string"
  | c :: cs =>
    if c = '"' then .ok ([], cs)
    else if c = '\\' then
      match cs with
      | [] => .error "Unterminated string"
      | e :: cs' =>
        if e = 'u' then
          match cs' with
          | a :: b :: c2 :: d :: cs'' =>
            match hexVal a, hexVal b, hexVal c2, hexVal d with
            | some ha, some hb, some hc, some hd =>
              (parseStringBody cs'').map
                (fun p => (Char.ofNat (((ha * 16 + hb) * 16 + hc) * 16 + hd) :: p.1, p.2))
            | _, _, _, _ => .error "Invalid uXXXX escape"
          | _ => .error "Invalid uXXXX escape"
        else
          match escChar e with
          | some ec => (parseStringBody cs').map (fun p => (ec :: p.1, p.2))
          | none => .error "Invalid escape"
    else if c.toNat < 32 then .error "Invalid control character"
    else (parseStringBody cs).map (fun p => (c :: p.1, p.2))

/-- Optional leading minus of a JSON number: whether it is present, and
the rest. -/
def numSign (cs : List Char) : Bool × List Char :=
  match cs with
  | '-' :: r => (true, r)
  | _ => (false, cs)

/-- Fractional part of a JSON number: consumed only as a dot followed by
at least one digit; otherwise nothing is consumed. -/
def numFrac (r1 : List Char) : List Char × List Char :=
  match r1 with
  | '.' :: rf =>
    let ds := rf.takeWhile Char.isDigit
    if ds.isEmpty then ([], r1) else (ds, rf.drop ds.length)
  | _ => ([], r1)

/-- Optional sign of an exponent. -/
def numExpSign (re : List Char) : ℤ × List Char :=
  match re with
  | '+' :: x => (1, x)
  | '-' :: x => (-1, x)
  | _ => (1, re)

/-- Exponent part of a JSON number: consumed only as e/E, an optional
sign and at least one digit.  Returns presence, signed exponent, rest. -/
def numExp (r2 : List Char) : Bool × ℤ × List Char :=
  match r2 with
  | e :: re =>
    if e = 'e' || e = 'E' then
      let p := numExpSign re
      let ds := p.2.takeWhile Char.isDigit
      if ds.isEmpty then (false, 0, r2)
      else (true, p.1 * (digitsToNat ds : ℤ), p.2.drop ds.length)
    else (false, 0, r2)
  | [] => (false, 0, r2)

/-- A JSON number per the grammar of the Python `json` scanner: optional
minus, `0` or a nonzero-led digit run, optional fraction, optional
exponent.  Ints without fraction/exponent stay ints, everything else is
a float with its exact rational value. -/
def parseNumber (cs : List Char) : Except String (PyNum × List Char) :=
  let sg := numSign cs
  match sg.2 with
  | [] => .error "Expecting value"
  | c :: _ =>
    if !c.isDigit then .error "Expecting value"
    else
      let ip := if c = '0' then ['0'] else sg.2.takeWhile Char.isDigit
      let r1 := sg.2.drop ip.length
      let fr := numFrac r1
      let ee := numExp fr.2
      if fr.1.isEmpty && !ee.1 then
        .ok (.int (if sg.1 then -(digitsToNat ip : ℤ) else (digitsToNat ip : ℤ)), r1)
      else
        let mant : ℕ := digitsToNat (ip ++ fr.1)
        let shift : ℤ := ee.2.1 - fr.1.length
        let v : ℚ :=
          if 0 ≤ shift then mkRat ((mant : ℤ) * ((10 ^ shift.toNat : ℕ) : ℤ)) 1
          else mkRat (mant : ℤ) ((10 : ℕ) ^ (-shift).toNat)
        .ok (.float (if sg.1 then -v else v), ee.2.2)

/-- Consume a literal word, returning the rest on a match. -/
def stripLit (lit : String) (cs : List Char) : Option (List Char) :=
  if lit.toList.isPrefixOf cs then some (cs.drop lit.length) else none

/-- The literal and number alternatives of a JSON value: `true`,
`false`, `null`, plus the Python extensions `NaN`, `Infinity`,
`-Infinity`; otherwise a number. -/
def litOrNumber (cs : List Char) : Except String (JValue × List Char) :=
  match stripLit "true" cs with
  | some r => .ok (.bool true, r)
  | none =>
  match stripLit "false" cs with
  | some r => .ok (.bool false, r)
  | none =>
  match stripLit "null" cs with
  | some r => .ok (.null, r)
  | none =>
  match stripLit "NaN" cs with
  | some r => .ok (.num .nan, r)
  | none =>
  match stripLit "Infinity" cs with
  | some r => .ok (.num .inf, r)
  | none =>
  match stripLit "-Infinity" cs with
  | some r => .ok (.num .ninf, r)
  | none => (parseNumber cs).map (fun p => (.num p.1, p.2))

mutual

/-- Recursive-descent JSON value parser modelling the Python `json`
scanner, with a recursion-depth fuel (Python has a recursion limit). -/
def parseValue : Nat → List Char → Except String (JValue × List Char)
  | 0, _ => .error "maximum recursion depth exceeded"
  | _ + 1, [] => .error "Expecting value"
  | fuel + 1, c :: cs =>
    if c = '{' then
      match parseMembers fuel (skipWs cs) with
      | .ok (kvs, rest) => .ok (.obj kvs, rest)
      | .error e => .error e
    else if c = '[' then
      match parseElems fuel (skipWs cs) with
      | .ok (xs, rest) => .ok (.arr xs, rest)
      | .error e => .error e
    else if c = '"' then
      match parseStringBody cs with
      | .ok (sl, rest) => .ok (.str sl.asString, rest)
      | .error e => .error e
    else litOrNumber (c :: cs)

/-- Object members after the opening brace (whitespace already
skipped): either an immediate closing brace or a nonempty member list. -/
def parseMembers : Nat → List Char → Except String (List (String × JValue) × List Char)
  | 0, _ => .error "maximum recursion depth exceeded"
  | fuel + 1, cs =>
    match cs with
    | '}' :: rest => .ok ([], rest)
    | _ => parsePair fuel cs

/-- A nonempty run of `"key": value` members separated by commas,
ending at the closing brace (which is consumed). -/
def parsePair : Nat → List Char → Except String (List (String × JValue) × List Char)
  | 0, _ => .error "maximum recursion depth exceeded"
  | fuel + 1, cs =>
    match cs with
    | '"' :: cs' =>
      match parseStringBody cs' with
      | .error e => .error e
      | .ok (k, r1) =>
        match skipWs r1 with
        | ':' :: r2 =>
          match parseValue fuel (skipWs r2) with
          | .error e => .error e
          | .ok (v, r3) =>
            match skipWs r3 with
            | ',' :: r4 =>
              match parsePair fuel (skipWs r4) with
              | .ok (kvs, r5) => .ok ((k.asString, v) :: kvs, r5)
              | .error e => .error e
            | '}' :: r4 => .ok ([(k.asString, v)], r4)
            | _ => .error "Expecting comma delimiter"
        | _ => .error "Expecting colon delimiter"
    | _ => .error "Expecting property name enclosed in double quotes"

/-- Array elements after the opening bracket (whitespace already
skipped). -/
def parseElems : Nat → List Char → Except String (List JValue × List Char)
  | 0, _ => .error "maximum recursion depth exceeded"
  | fuel + 1, cs =>
    match cs with
    | ']' :: rest => .ok ([], rest)
    | _ => parseElemTail fuel cs

/-- A nonempty run of array elements separated by commas, ending at the
closing bracket (which is consumed). -/
def parseElemTail : Nat → List Char → Except String (List JValue × List Char)
  | 0, _ => .error "maximum recursion depth exceeded"
  | fuel + 1, cs =>
    match parseValue fuel cs with
    | .error e => .error e
    | .ok (v, r1) =>
      match skipWs r1 with
      | ',' :: r2 =>
        match parseElemTail fuel (skipWs r2) with
        | .ok (vs, r3) => .ok (v :: vs, r3)
        | .error e => .error e
      | ']' :: r2 => .ok ([v], r2)
      | _ => .error "Expecting comma delimiter"

end

/-- Model of `json.loads` on a string: skip leading whitespace, parse
one value, require only whitespace to remain. -/
def pyJsonLoads (s : List Char) : Except String JValue :=
  match parseValue (s.length + 1) (skipWs s) with
  | .error e => .error e
  | .ok (v, rest) => if skipWs rest = [] then .ok v else .error "Extra data"

mutual

/-- Python `repr` of a JSON value (used for elements of containers when
a container is rendered by `str`). -/
def pyRepr : JValue → String
  | .null => "None"
  | .bool true => "True"
  | .bool false => "False"
  | .num x => pyNumRepr x
  | .str s => (Char.ofNat 39).toString ++ s ++ (Char.ofNat 39).toString
  | .arr xs => "[" ++ pyReprElems xs ++ "]"
  | .obj kvs => "\x7b" ++ pyReprMembers kvs ++ "\x7d"

/-- Comma-separated reprs of list elements. -/
def pyReprElems : List JValue → String
  | [] => ""
  | [x] => pyRepr x
  | x :: xs => pyRepr x ++ ", " ++ pyReprElems xs

/-- Comma-separated reprs of dict members. -/
def pyReprMembers : List (String × JValue) → String
  | [] => ""
  | [(k, v)] => (Char.ofNat 39).toString ++ k ++ (Char.ofNat 39).toString ++ ": " ++ pyRepr v
  | (k, v) :: kvs =>
    (Char.ofNat 39).toString ++ k ++ (Char.ofNat 39).toString ++ ": " ++ pyRepr v ++ ", " ++
      pyReprMembers kvs

end

/-- Python `str` of a JSON value, as interpolated by an f-string:
strings are used verbatim, everything else by its repr. -/
def pyStr : JValue → String
  | .str s => s
  | v => pyRepr v

/-- The dict returned by `run_fact_check` in every branch:
`{"score": ..., "details": ...}` (src/agents.py lines 248, 266, 275, 279). -/
structure FactRecord where
  score : PyNum
  details : String
deriving DecidableEq

/-- The Python dict literal behind a `FactRecord`. -/
def FactRecord.toDict (r : FactRecord) : List (String × JValue) :=
  [("score", .num r.score), ("details", .str r.details)]

/-- Model of `ResearchCrew._extract_json` (src/agents.py lines 34-72):
find the first brace and last closing brace, slice, parse; any failure
returns `None`. -/
def _extract_json (text : List Char) : Option JValue :=
  match listFind text '{', listRfind text '}' with
  | some i, some j =>
    match pyJsonLoads ((text.drop i).take (j + 1 - i)) with
    | .ok v => some v
    | .error _ => none
  | _, _ => none

/-- The validation of the parsed fact-check object (src/agents.py lines
260-269): require the keys, convert with `float`, clamp, and build the
result; `Except.error` models the ValueError/TypeError raises that the
outer handler turns into a record. -/
def factValidateE (parsed : JValue) : Except String FactRecord := do
  let hs ← pyIn "score" parsed
  if !hs then throw "Missing required fields in response"
  else
    let hd ← pyIn "details" parsed
    if !hd then throw "Missing required fields in response"
    else
      let sv ← getItem parsed "score"
      let scf ← pyFloatFn sv
      let score := clampScore scf
      let dv ← getItem parsed "details"
      return ⟨score, "Veracity Score: " ++ pyNumRepr score ++ " - " ++ pyStr dv⟩

/-- The validation step together with the outer `except Exception`
handler of `run_fact_check` (src/agents.py lines 277-279). -/
def fcValidate (parsed : JValue) : FactRecord :=
  match factValidateE parsed with
  | .ok rec => rec
  | .error e => ⟨.int 0, "Error during fact check: " ++ e⟩

/-- Parse of the candidate substring with the inner
`except json.JSONDecodeError` handler (src/agents.py lines 254-275). -/
def fcFromCandidate (json_str : List Char) : FactRecord :=
  match pyJsonLoads json_str with
  | .ok parsed => fcValidate parsed
  | .error e => ⟨.int 0, "Error: JSON parsing failed - " ++ e⟩

/-- Model of `ResearchCrew.run_fact_check` (src/agents.py lines 187-279)
as a function of the raw model-response text `str(result)`: strip,
locate the first brace and last closing brace, slice, parse, validate.
Every branch returns a `{"score", "details"}` record. -/
def run_fact_check (result_str : List Char) : FactRecord :=
  match listFind (pyStrip result_str) '{', listRfind (pyStrip result_str) '}' with
  | some i, some j => fcFromCandidate (((pyStrip result_str).drop i).take (j + 1 - i))
  | _, _ => ⟨.int 0, "Error: Could not extract JSON from response"⟩

/-- The result of `generate_content` (src/agents.py lines 281-350):
either the success dict `{"content", "metadata": {"topic", "timestamp",
"word_count"}}` or the error dict `{"content": error text, "metadata":
{"topic", "timestamp", "error"}}`. -/
inductive ContentResult where
  | ok (content : String) (topic timestamp : String) (word_count : Nat)
  | err (topic timestamp errMsg : String)
deriving DecidableEq

/-- The Python dict literal behind a `ContentResult`. -/
def ContentResult.toDict : ContentResult → List (String × JValue)
  | .ok c t ts wc =>
    [("content", .str c),
     ("metadata", .obj [("topic", .str t), ("timestamp", .str ts),
                        ("word_count", .num (.int wc))])]
  | .err t ts e =>
    [("content", .str ("Error generating content: " ++ e)),
     ("metadata", .obj [("topic", .str t), ("timestamp", .str ts),
                        ("error", .str e)])]

/-- The body of the `try` block of `generate_content` (src/agents.py
lines 314-339), as a function of the raw response: `Except.error`
models every exception reaching the outer handler (the ValueError
raises, the uncaught JSONDecodeError, and the AttributeError from
`.split()` on a non-string). -/
def gcBody (result_str : List Char) : Except String (String × Nat) :=
  match listFind (pyStrip result_str) '{', listRfind (pyStrip result_str) '}' with
  | some i, some j =>
    match pyJsonLoads (((pyStrip result_str).drop i).take (j + 1 - i)) with
    | .error e => .error e
    | .ok parsed =>
      match pyIn "content" parsed with
      | .error e => .error e
      | .ok hc =>
        if !hc then
          .error ("Missing " ++ (Char.ofNat 39).toString ++ "content" ++
            (Char.ofNat 39).toString ++ " field in response")
        else
          match getItem parsed "content" with
          | .error e => .error e
          | .ok (.str c) => .ok (c, pySplitCount c.toList)
          | .ok cv => .error (pyTypeName cv ++ " object has no attribute split")
  | _, _ => .error "No JSON object found in response"

/-- Model of `ResearchCrew.generate_content` (src/agents.py lines
281-350) as a function of the topic, the raw response text and the
timestamp string produced by `datetime.now().isoformat()`. -/
def generate_content (topic : String) (result_str : List Char) (now : String) : ContentResult :=
  match gcBody result_str with
  | .ok (c, wc) => .ok c topic now wc
  | .error e => .err topic now e

/-- The result of `generate_factual_content` (src/agents.py lines
74-185): the success dict with status COMPLETE or the failure dict
`{"status": "FAILED", "error", "metadata": {"topic", "timestamp"}}`. -/
inductive FactualResult where
  | complete (content struct wordCount score improvements citations : JValue)
      (topic timestamp : String)
  | failed (error : String) (topic timestamp : String)

/-- The Python dict literal behind a `FactualResult`. -/
def FactualResult.toDict : FactualResult → List (String × JValue)
  | .complete c st wc sc im ci t ts =>
    [("status", .str "COMPLETE"),
     ("content", c),
     ("structure", st),
     ("word_count", wc),
     ("verification", .obj [("score", sc), ("improvements", im), ("citations", ci)]),
     ("metadata", .obj [("topic", .str t), ("timestamp", .str ts)])]
  | .failed e t ts =>
    [("status", .str "FAILED"),
     ("error", .str e),
     ("metadata", .obj [("topic", .str t), ("timestamp", .str ts)])]

/-- The word_count field of a successful factual-content record. -/
def FactualResult.wordCountField : FactualResult → Option JValue
  | .complete _ _ wc _ _ _ _ _ => some wc
  | .failed _ _ _ => none

/-- The body of the `try` block of `generate_factual_content`
(src/agents.py lines 150-174), as a function of the writer-task and
fact-check-task output strings: extract both JSON payloads (a `None` or
falsy - that is, empty - dict raises ValueError), then build the
combined fields; `content_json["content"]` can raise KeyError, whose
`str` is the quoted key. -/
def gfcBody (w f : List Char) :
    Except String (JValue × JValue × JValue × JValue × JValue × JValue) :=
  match _extract_json w with
  | none => .error "Failed to parse content generation output"
  | some cj =>
    if pyFalsy cj then .error "Failed to parse content generation output"
    else
      match _extract_json f with
      | none => .error "Failed to parse verification output"
      | some vj =>
        if pyFalsy vj then .error "Failed to parse verification output"
        else
          match getItem cj "content" with
          | .error e => .error e
          | .ok content =>
            match pyGetE cj "structure" (.str ""), pyGetE cj "word_count" (.num (.int 0)),
                  pyGetE vj "score" (.num (.int 0)), pyGetE vj "improvements" (.str ""),
                  pyGetE vj "citations" (.arr []) with
            | .ok st, .ok wc, .ok sc, .ok im, .ok ci => .ok (content, st, wc, sc, im, ci)
            | .error e, _, _, _, _ => .error e
            | _, .error e, _, _, _ => .error e
            | _, _, .error e, _, _ => .error e
            | _, _, _, .error e, _ => .error e
            | _, _, _, _, .error e => .error e

/-- Model of `ResearchCrew.generate_factual_content` (src/agents.py
lines 74-185) as a function of the topic, the two task output strings
and the timestamp: any exception in the body is turned into the FAILED
record by the handler at lines 176-185. -/
def generate_factual_content (topic : String) (w f : List Char) (now : String) :
    FactualResult :=
  match gfcBody w f with
  | .ok (c, st, wc, sc, im, ci) => .complete c st wc sc im ci topic now
  | .error e => .failed e topic now

/-- Modelled from the spec: the normalization step of the
parse-with-retry contract, which collapses embedded newlines to
spaces.  No such step exists in src/agents.py; this definition follows
the words of spec section 4.2 and is used only to state what the spec
promises. -/
def specCollapseNewlines (cs : List Char) : List Char :=
  cs.map (fun c => if c = '\n' then ' ' else c)

theorem skipWs_suffix (l : List Char) : ∃ p, l = p ++ skipWs l :=
  ⟨l.takeWhile isJsonWs, (List.takeWhile_append_dropWhile isJsonWs l).symm⟩

theorem skipWs_cons_self {a : Char} {t : List Char} (h : isJsonWs a = false) :
    skipWs (a :: t) = a :: t := by
  simp [skipWs, List.dropWhile_cons, h]

theorem skipWs_nil_all {l : List Char} (h : skipWs l = []) : ∀ x ∈ l, isJsonWs x = true :=
  List.dropWhile_eq_nil_iff.mp h

theorem jsonWs_pySpace {c : Char} (h : isJsonWs c = true) : isPySpace c = true := by
  simp only [isJsonWs, Bool.or_eq_true, decide_eq_true_eq] at h
  simp only [isPySpace, Bool.or_eq_true, decide_eq_true_eq]
  rcases h with ((h | h) | h) | h <;> simp [h]

theorem getLast?_of_suffix {α : Type} {l₁ l₂ : List α} (h : l₁ <:+ l₂) (hne : l₁ ≠ []) :
    l₂.getLast? = l₁.getLast? := by
  obtain ⟨p, rfl⟩ := h
  rw [List.getLast?_append]
  match l₁, hne with
  | a :: t, _ =>
    have : (a :: t).getLast? = some ((a :: t).getLast (by simp)) := List.getLast?_eq_getLast _ _
    rw [this]
    rfl

theorem pyStrip_head {r : List Char} {a : Char} {t : List Char} (h : pyStrip r = a :: t) :
    isPySpace a = false := by
  unfold pyStrip at h
  have := List.head?_dropWhile_not isPySpace ((r.reverse.dropWhile isPySpace).reverse)
  rw [h] at this
  simpa using this

theorem pyStrip_last {r : List Char} {c : Char} (h : (pyStrip r).getLast? = some c) :
    isPySpace c = false := by
  have hne : pyStrip r ≠ [] := by
    intro hnil
    rw [hnil] at h
    simp at h
  have hsuf : pyStrip r <:+ (r.reverse.dropWhile isPySpace).reverse :=
    List.dropWhile_suffix isPySpace
  have hX : ((r.reverse.dropWhile isPySpace).reverse).getLast? = (pyStrip r).getLast? :=
    getLast?_of_suffix hsuf hne
  rw [h] at hX
  rw [List.getLast?_reverse] at hX
  have := List.head?_dropWhile_not isPySpace r.reverse
  rw [hX] at this
  simpa using this

theorem listFind_cons_self {a : Char} {t : List Char} : listFind (a :: t) a = some 0 := by
  simp [listFind]

theorem listRfind_concat {p : List Char} {c : Char} :
    listRfind (p ++ [c]) c = some ((p ++ [c]).length - 1) := by
  unfold listRfind
  rw [List.reverse_append]
  simp [listFind_cons_self]

theorem slice_whole {s : List Char} (hne : s ≠ []) :
    (s.drop 0).take (s.length - 1 + 1 - 0) = s := by
  have hlen : 1 ≤ s.length := by
    cases s with
    | nil => simp at hne
    | cons a t => simp
  simp only [List.drop_zero, Nat.sub_zero]
  rw [Nat.sub_add_cancel hlen]
  exact List.take_length s

theorem parseStringBody_suffix :
    ∀ (cs : List Char) (sl rest : List Char),
      parseStringBody cs = .ok (sl, rest) → ∃ p, cs = p ++ rest := by
  intro cs
  induction cs using parseStringBody.induct with
  | case1 =>
    intro sl rest h
    rw [parseStringBody.eq_def] at h
    simp at h
  | case2 cs' =>
    intro sl rest h
    rw [parseStringBody.eq_def] at h
    simp at h
    exact ⟨['"'], by simp [h.2]⟩
  | case3 hne =>
    intro sl rest h
    rw [parseStringBody.eq_def] at h
    simp at h
  | case4 a b c2 d cs'' ha hb hc hd hda hca hba haa hne ih =>
    intro sl rest h
    rw [parseStringBody.eq_def] at h
    simp only [haa, hba, hca, hda] at h
    simp at h
    cases hx : parseStringBody cs'' with
    | error e => rw [hx] at h; simp [Except.map] at h
    | ok p =>
      rw [hx] at h
      simp [Except.map] at h
      obtain ⟨q, hq⟩ := ih p.1 p.2 (by rw [hx])
      exact ⟨'\\' :: 'u' :: a :: b :: c2 :: d :: q, by
        rw [← h.2]
        simp [hq]⟩
  | case5 a b c2 d cs'' hfail hne =>
    intro sl rest h
    rw [parseStringBody.eq_def] at h
    simp at h
  | case6 cs' hshape hne =>
    intro sl rest h
    rw [parseStringBody.eq_def] at h
    match cs', h with
    | a :: b :: c2 :: d :: cs'', h => exact (hshape a b c2 d cs'' rfl).elim
    | [], h => simp at h
    | [a], h => simp at h
    | [a, b], h => simp at h
    | [a, b, c2], h => simp at h
  | case7 e cs' hnu ec hec hne ih =>
    intro sl rest h
    rw [parseStringBody.eq_def] at h
    simp only [hec] at h
    simp [hnu] at h
    cases hx : parseStringBody cs' with
    | error er => rw [hx] at h; simp [Except.map] at h
    | ok p =>
      rw [hx] at h
      simp [Except.map] at h
      obtain ⟨q, hq⟩ := ih p.1 p.2 (by rw [hx])
      exact ⟨'\\' :: e :: q, by rw [← h.2]; simp [hq]⟩
  | case8 e cs' hnu hec hne =>
    intro sl rest h
    rw [parseStringBody.eq_def] at h
    simp only [hec] at h
    simp [hnu] at h
  | case9 e cs' hnq hns hctl =>
    intro sl rest h
    rw [parseStringBody.eq_def] at h
    simp [hnq, hns, hctl] at h
  | case10 e cs' hnq hns hctl ih =>
    intro sl rest h
    rw [parseStringBody.eq_def] at h
    simp [hnq, hns, hctl] at h
    cases hx : parseStringBody cs' with
    | error er => rw [hx] at h; simp [Except.map] at h
    | ok p =>
      rw [hx] at h
      simp [Except.map] at h
      obtain ⟨q, hq⟩ := ih p.1 p.2 (by rw [hx])
      exact ⟨e :: q, by rw [← h.2]; simp [hq]⟩

theorem numSign_snd_suffix (cs : List Char) : (numSign cs).2 <:+ cs := by
  unfold numSign
  split
  · exact List.suffix_cons _ _
  · exact List.suffix_rfl

theorem numFrac_snd_suffix (r1 : List Char) : (numFrac r1).2 <:+ r1 := by
  unfold numFrac
  split
  next rf =>
    dsimp only
    split
    · exact List.suffix_rfl
    · exact (List.drop_suffix _ _).trans (List.suffix_cons _ _)
  next => exact List.suffix_rfl

theorem numExpSign_snd_suffix (re : List Char) : (numExpSign re).2 <:+ re := by
  unfold numExpSign
  split
  · exact List.suffix_cons _ _
  · exact List.suffix_cons _ _
  · exact List.suffix_rfl

theorem numExp_rest_suffix (r2 : List Char) : (numExp r2).2.2 <:+ r2 := by
  unfold numExp
  split
  next e re =>
    dsimp only
    split
    · split
      · exact List.suffix_rfl
      · exact ((List.drop_suffix _ _).trans (numExpSign_snd_suffix re)).trans
          (List.suffix_cons _ _)
    · exact List.suffix_rfl
  next => exact List.suffix_rfl

theorem parseNumber_suffix {cs : List Char} {x : PyNum} {rest : List Char}
    (h : parseNumber cs = .ok (x, rest)) : rest <:+ cs := by
  rw [parseNumber.eq_def] at h
  simp only [] at h
  have hsg : (numSign cs).2 <:+ cs := numSign_snd_suffix cs
  split at h
  · exact absurd h (by simp)
  next c tl heq =>
    split at h
    · exact absurd h (by simp)
    · split at h
      all_goals split at h
      all_goals (injection h with h1; injection h1 with h1 h2; subst h2)
      · exact (List.drop_suffix _ _).trans hsg
      · exact (((numExp_rest_suffix _).trans (numFrac_snd_suffix _)).trans
          (List.drop_suffix _ _)).trans hsg
      · exact (List.drop_suffix _ _).trans hsg
      · exact (((numExp_rest_suffix _).trans (numFrac_snd_suffix _)).trans
          (List.drop_suffix _ _)).trans hsg

theorem stripLit_suffix {lit : String} {cs rest : List Char}
    (h : stripLit lit cs = some rest) : rest <:+ cs := by
  unfold stripLit at h
  split at h
  · injection h with h1
    subst h1
    exact List.drop_suffix _ _
  · cases h

theorem litOrNumber_suffix {cs : List Char} {v : JValue} {rest : List Char}
    (h : litOrNumber cs = .ok (v, rest)) : rest <:+ cs := by
  unfold litOrNumber at h
  split at h
  next r hr => injection h with h1; injection h1 with h1 h2; subst h2; exact stripLit_suffix hr
  next =>
  split at h
  next r hr => injection h with h1; injection h1 with h1 h2; subst h2; exact stripLit_suffix hr
  next =>
  split at h
  next r hr => injection h with h1; injection h1 with h1 h2; subst h2; exact stripLit_suffix hr
  next =>
  split at h
  next r hr => injection h with h1; injection h1 with h1 h2; subst h2; exact stripLit_suffix hr
  next =>
  split at h
  next r hr => injection h with h1; injection h1 with h1 h2; subst h2; exact stripLit_suffix hr
  next =>
  split at h
  next r hr => injection h with h1; injection h1 with h1 h2; subst h2; exact stripLit_suffix hr
  next =>
    cases hx : parseNumber cs with
    | error e => rw [hx] at h; simp [Except.map] at h
    | ok p =>
      rw [hx] at h
      simp [Except.map] at h
      rw [← h.2]
      exact parseNumber_suffix hx

theorem skipWs_isSuffix (l : List Char) : skipWs l <:+ l := List.dropWhile_suffix _

theorem parseStringBody_isSuffix {cs sl rest : List Char}
    (h : parseStringBody cs = .ok (sl, rest)) : rest <:+ cs := by
  obtain ⟨p, hp⟩ := parseStringBody_suffix cs sl rest h
  exact ⟨p, hp.symm⟩

theorem parse_suffix :
    ∀ fuel : Nat,
      (∀ cs v rest, parseValue fuel cs = .ok (v, rest) → rest <:+ cs) ∧
      (∀ cs kvs rest, parseMembers fuel cs = .ok (kvs, rest) → rest <:+ cs) ∧
      (∀ cs kvs rest, parsePair fuel cs = .ok (kvs, rest) → rest <:+ cs) ∧
      (∀ cs xs rest, parseElems fuel cs = .ok (xs, rest) → rest <:+ cs) ∧
      (∀ cs xs rest, parseElemTail fuel cs = .ok (xs, rest) → rest <:+ cs) := by
  intro fuel
  induction fuel with
  | zero =>
    refine ⟨?_, ?_, ?_, ?_, ?_⟩ <;> intro cs a rest h <;>
      simp [parseValue, parseMembers, parsePair, parseElems, parseElemTail] at h
  | succ n ih =>
    obtain ⟨ihV, ihM, ihP, ihE, ihT⟩ := ih
    refine ⟨?_, ?_, ?_, ?_, ?_⟩
    · intro cs v rest h
      match cs with
      | [] => simp [parseValue] at h
      | c :: cs1 =>
        rw [parseValue.eq_def] at h
        simp only [] at h
        by_cases hbr : c = '{'
        · rw [if_pos hbr] at h
          cases hm : parseMembers n (skipWs cs1) with
          | error e => rw [hm] at h; simp at h
          | ok p =>
            rw [hm] at h
            simp at h
            rw [← h.2]
            exact ((ihM _ _ _ (by rw [hm])).trans (skipWs_isSuffix cs1)).trans
              (List.suffix_cons _ _)
        · rw [if_neg hbr] at h
          by_cases hbk : c = '['
          · rw [if_pos hbk] at h
            cases hm : parseElems n (skipWs cs1) with
            | error e => rw [hm] at h; simp at h
            | ok p =>
              rw [hm] at h
              simp at h
              rw [← h.2]
              exact ((ihE _ _ _ (by rw [hm])).trans (skipWs_isSuffix cs1)).trans
                (List.suffix_cons _ _)
          · rw [if_neg hbk] at h
            by_cases hq : c = '"'
            · rw [if_pos hq] at h
              cases hm : parseStringBody cs1 with
              | error e => rw [hm] at h; simp at h
              | ok p =>
                rw [hm] at h
                simp at h
                rw [← h.2]
                exact (parseStringBody_isSuffix (by rw [hm])).trans (List.suffix_cons _ _)
            · rw [if_neg hq] at h
              exact litOrNumber_suffix h
    · intro cs kvs rest h
      rw [parseMembers.eq_def] at h
      simp only [] at h
      split at h
      · injection h with h1
        injection h1 with h1 h2
        subst h2
        exact List.suffix_cons _ _
      · exact ihP _ _ _ h
    · intro cs kvs rest h
      rw [parsePair.eq_def] at h
      simp only [] at h
      split at h
      next cs1 =>
        cases hs : parseStringBody cs1 with
        | error e => rw [hs] at h; simp at h
        | ok pk =>
          rw [hs] at h
          simp only [] at h
          have hr1 : pk.2 <:+ cs1 := parseStringBody_isSuffix (by rw [hs])
          split at h
          next r2 hsw =>
            have hr2 : r2 <:+ pk.2 := by
              have : r2 <:+ skipWs pk.2 := by rw [hsw]; exact List.suffix_cons _ _
              exact this.trans (skipWs_isSuffix _)
            cases hv : parseValue n (skipWs r2) with
            | error e => rw [hv] at h; simp at h
            | ok pv =>
              rw [hv] at h
              simp only [] at h
              have hr3 : pv.2 <:+ r2 :=
                (ihV _ _ _ (by rw [hv])).trans (skipWs_isSuffix r2)
              split at h
              next r4 hsw2 =>
                have hr4 : r4 <:+ pv.2 := by
                  have : r4 <:+ skipWs pv.2 := by rw [hsw2]; exact List.suffix_cons _ _
                  exact this.trans (skipWs_isSuffix _)
                cases hp2 : parsePair n (skipWs r4) with
                | error e => rw [hp2] at h; simp at h
                | ok pr =>
                  rw [hp2] at h
                  simp at h
                  rw [← h.2]
                  have hr5 : pr.2 <:+ r4 :=
                    (ihP _ _ _ (by rw [hp2])).trans (skipWs_isSuffix r4)
                  exact ((((hr5.trans hr4).trans hr3).trans hr2).trans hr1).trans
                    (List.suffix_cons _ _)
              next r4 hsw2 =>
                injection h with h1
                injection h1 with h1 h2
                subst h2
                have hr4 : r4 <:+ pv.2 := by
                  have : r4 <:+ skipWs pv.2 := by rw [hsw2]; exact List.suffix_cons _ _
                  exact this.trans (skipWs_isSuffix _)
                exact (((hr4.trans hr3).trans hr2).trans hr1).trans (List.suffix_cons _ _)
              next => simp at h
          next => simp at h
      next => simp at h
    · intro cs xs rest h
      rw [parseElems.eq_def] at h
      simp only [] at h
      split at h
      · injection h with h1
        injection h1 with h1 h2
        subst h2
        exact List.suffix_cons _ _
      · exact ihT _ _ _ h
    · intro cs xs rest h
      rw [parseElemTail.eq_def] at h
      simp only [] at h
      cases hv : parseValue n cs with
      | error e => rw [hv] at h; simp at h
      | ok pv =>
        rw [hv] at h
        simp only [] at h
        have hr1 : pv.2 <:+ cs := ihV _ _ _ (by rw [hv])
        split at h
        next r2 hsw =>
          have hr2 : r2 <:+ pv.2 := by
            have : r2 <:+ skipWs pv.2 := by rw [hsw]; exact List.suffix_cons _ _
            exact this.trans (skipWs_isSuffix _)
          cases ht : parseElemTail n (skipWs r2) with
          | error e => rw [ht] at h; simp at h
          | ok pt =>
            rw [ht] at h
            simp at h
            rw [← h.2]
            have hr3 : pt.2 <:+ r2 :=
              (ihT _ _ _ (by rw [ht])).trans (skipWs_isSuffix r2)
            exact (hr3.trans hr2).trans hr1
        next r2 hsw =>
          injection h with h1
          injection h1 with h1 h2
          subst h2
          have hr2 : r2 <:+ pv.2 := by
            have : r2 <:+ skipWs pv.2 := by rw [hsw]; exact List.suffix_cons _ _
            exact this.trans (skipWs_isSuffix _)
          exact hr2.trans hr1
        next => simp at h

theorem skipWs_decomp (l : List Char) : l = l.takeWhile isJsonWs ++ skipWs l :=
  (List.takeWhile_append_dropWhile _ _).symm

theorem members_pair_end :
    ∀ fuel : Nat,
      (∀ cs kvs rest, parseMembers fuel cs = .ok (kvs, rest) → ∃ p, cs = p ++ '}' :: rest) ∧
      (∀ cs kvs rest, parsePair fuel cs = .ok (kvs, rest) → ∃ p, cs = p ++ '}' :: rest) := by
  intro fuel
  induction fuel with
  | zero =>
    refine ⟨?_, ?_⟩ <;> intro cs kvs rest h <;> simp [parseMembers, parsePair] at h
  | succ n ih =>
    obtain ⟨ihM, ihP⟩ := ih
    have hMembers : ∀ cs kvs rest, parseMembers (n + 1) cs = .ok (kvs, rest) →
        ∃ p, cs = p ++ '}' :: rest := by
      intro cs kvs rest h
      rw [parseMembers.eq_def] at h
      simp only [] at h
      split at h
      · injection h with h1
        injection h1 with h1 h2
        subst h2
        exact ⟨[], rfl⟩
      · exact ihP _ _ _ h
    refine ⟨hMembers, ?_⟩
    intro cs kvs rest h
    rw [parsePair.eq_def] at h
    simp only [] at h
    split at h
    next cs1 =>
      cases hs : parseStringBody cs1 with
      | error e => rw [hs] at h; simp at h
      | ok pk =>
        rw [hs] at h
        simp only [] at h
        obtain ⟨a, ha⟩ := parseStringBody_suffix cs1 pk.1 pk.2 (by rw [hs])
        split at h
        next r2 hsw =>
          obtain ⟨w1, e2⟩ : ∃ w, pk.2 = w ++ ':' :: r2 :=
            ⟨pk.2.takeWhile isJsonWs, by rw [← hsw]; exact skipWs_decomp pk.2⟩
          cases hv : parseValue n (skipWs r2) with
          | error e => rw [hv] at h; simp at h
          | ok pv =>
            rw [hv] at h
            simp only [] at h
            obtain ⟨b, hb⟩ := (parse_suffix n).1 _ _ _ hv
            obtain ⟨w2, e34⟩ : ∃ w, r2 = w ++ (b ++ pv.2) :=
              ⟨r2.takeWhile isJsonWs, by rw [hb]; exact skipWs_decomp r2⟩
            split at h
            next r4 hsw2 =>
              obtain ⟨w3, e5⟩ : ∃ w, pv.2 = w ++ ',' :: r4 :=
                ⟨pv.2.takeWhile isJsonWs, by rw [← hsw2]; exact skipWs_decomp pv.2⟩
              cases hp2 : parsePair n (skipWs r4) with
              | error e => rw [hp2] at h; simp at h
              | ok pr =>
                rw [hp2] at h
                simp at h
                obtain ⟨p, hp⟩ := ihP _ _ _ (by rw [hp2])
                obtain ⟨w4, e67⟩ : ∃ w, r4 = w ++ (p ++ '}' :: pr.2) :=
                  ⟨r4.takeWhile isJsonWs, by rw [← hp]; exact skipWs_decomp r4⟩
                refine ⟨'"' :: (a ++ (w1 ++ ':' :: (w2 ++ (b ++ (w3 ++ ',' ::
                  (w4 ++ p)))))), ?_⟩
                rw [← h.2]
                rw [ha, e2, e34, e5, e67]
                simp
            next r4 hsw2 =>
              injection h with h1
              injection h1 with h1 h2
              subst h2
              obtain ⟨w3, e5⟩ : ∃ w, pv.2 = w ++ '}' :: r4 :=
                ⟨pv.2.takeWhile isJsonWs, by rw [← hsw2]; exact skipWs_decomp pv.2⟩
              refine ⟨'"' :: (a ++ (w1 ++ ':' :: (w2 ++ (b ++ w3)))), ?_⟩
              rw [ha, e2, e34, e5]
              simp
            next => simp at h
        next => simp at h
    next => simp at h

theorem litOrNumber_not_obj {cs : List Char} {v : JValue} {rest : List Char}
    (h : litOrNumber cs = .ok (v, rest)) : ∀ kvs, v ≠ JValue.obj kvs := by
  unfold litOrNumber at h
  split at h
  · injection h with h1; injection h1 with h1 h2; subst h1; intro kvs hk; cases hk
  split at h
  · injection h with h1; injection h1 with h1 h2; subst h1; intro kvs hk; cases hk
  split at h
  · injection h with h1; injection h1 with h1 h2; subst h1; intro kvs hk; cases hk
  split at h
  · injection h with h1; injection h1 with h1 h2; subst h1; intro kvs hk; cases hk
  split at h
  · injection h with h1; injection h1 with h1 h2; subst h1; intro kvs hk; cases hk
  split at h
  · injection h with h1; injection h1 with h1 h2; subst h1; intro kvs hk; cases hk
  · cases hx : parseNumber cs with
    | error e => rw [hx] at h; simp [Except.map] at h
    | ok p =>
      rw [hx] at h
      simp [Except.map] at h
      rw [← h.1]
      intro kvs hk
      cases hk

theorem parseValue_obj_inv {fuel : Nat} {cs : List Char} {kvs : List (String × JValue)}
    {rest : List Char} (h : parseValue fuel cs = .ok (.obj kvs, rest)) :
    ∃ n cs1, fuel = n + 1 ∧ cs = '{' :: cs1 ∧ parseMembers n (skipWs cs1) = .ok (kvs, rest) := by
  match fuel with
  | 0 => simp [parseValue] at h
  | n + 1 =>
    match cs with
    | [] => simp [parseValue] at h
    | c :: cs1 =>
      rw [parseValue.eq_def] at h
      simp only [] at h
      by_cases hbr : c = '{'
      · subst hbr
        rw [if_pos rfl] at h
        cases hm : parseMembers n (skipWs cs1) with
        | error e => rw [hm] at h; simp at h
        | ok p =>
          rw [hm] at h
          simp at h
          refine ⟨n, cs1, rfl, rfl, ?_⟩
          rw [hm]
          obtain ⟨h1, h2⟩ := h
          rw [← h1, ← h2]
      · rw [if_neg hbr] at h
        by_cases hbk : c = '['
        · rw [if_pos hbk] at h
          cases hm : parseElems n (skipWs cs1) with
          | error e => rw [hm] at h; simp at h
          | ok p => rw [hm] at h; simp at h
        · rw [if_neg hbk] at h
          by_cases hq : c = '"'
          · rw [if_pos hq] at h
            cases hm : parseStringBody cs1 with
            | error e => rw [hm] at h; simp at h
            | ok p => rw [hm] at h; simp at h
          · rw [if_neg hq] at h
            exact absurd rfl (litOrNumber_not_obj h kvs)

theorem loads_obj_struct {s : List Char} {kvs : List (String × JValue)}
    (hlead : ∀ a t, s = a :: t → isPySpace a = false)
    (htrail : ∀ c, s.getLast? = some c → isPySpace c = false)
    (h : pyJsonLoads s = .ok (.obj kvs)) :
    ∃ mid, s = '{' :: mid ++ ['}'] := by
  unfold pyJsonLoads at h
  cases hp : parseValue (s.length + 1) (skipWs s) with
  | error e => rw [hp] at h; simp at h
  | ok p =>
    rw [hp] at h
    simp only [] at h
    split at h
    next hrest =>
      injection h with h1
      have hp' : parseValue (s.length + 1) (skipWs s) = .ok (.obj kvs, p.2) := by
        rw [hp, ← h1]
      rcases s with _ | ⟨a, t⟩
      · simp [skipWs, parseValue] at hp'
      · have hnw : isJsonWs a = false := by
          cases hja : isJsonWs a
          · rfl
          · exact absurd (jsonWs_pySpace hja) (by simp [hlead a t rfl])
        rw [skipWs_cons_self hnw] at hp'
        obtain ⟨n, cs1, hfuel, hcs, hmem⟩ := parseValue_obj_inv hp'
        obtain ⟨q, hq⟩ := (members_pair_end n).1 _ _ _ hmem
        obtain ⟨w, hw⟩ : ∃ w, cs1 = w ++ (q ++ '}' :: p.2) :=
          ⟨cs1.takeWhile isJsonWs, by rw [← hq]; exact skipWs_decomp cs1⟩
        have hrest_nil : p.2 = [] := by
          by_contra hne
          have hall : ∀ x ∈ p.2, isJsonWs x = true := skipWs_nil_all hrest
          have hsuf : p.2 <:+ a :: t := by
            refine ⟨'{' :: (w ++ (q ++ ['}'])), ?_⟩
            rw [hcs, hw]
            simp
          have hlast : (a :: t).getLast? = p.2.getLast? := getLast?_of_suffix hsuf hne
          match hg : p.2.getLast? with
          | none =>
            rw [hg] at hlast
            rw [List.getLast?_eq_getLast _ (by simp)] at hlast
            cases hlast
          | some c =>
            have hcmem : c ∈ p.2 := List.mem_of_mem_getLast? hg
            have hpc : isPySpace c = false := htrail c (by rw [hlast, hg])
            rw [jsonWs_pySpace (hall c hcmem)] at hpc
            cases hpc
        rw [hrest_nil] at hw
        refine ⟨w ++ q, ?_⟩
        rw [hcs, hw]
        simp
    next => cases h

theorem rfc_whole_parse {r : List Char} {kvs : List (String × JValue)}
    (h : pyJsonLoads (pyStrip r) = .ok (.obj kvs)) :
    run_fact_check r = fcValidate (.obj kvs) := by
  obtain ⟨mid, hms⟩ :=
    loads_obj_struct (fun a t ht => pyStrip_head ht) (fun c hc => pyStrip_last hc) h
  have hne : pyStrip r ≠ [] := by rw [hms]; simp
  have hf : listFind (pyStrip r) '{' = some 0 := by
    rw [hms]
    exact listFind_cons_self
  have hrf : listRfind (pyStrip r) '}' = some ((pyStrip r).length - 1) := by
    conv_lhs => rw [hms]
    conv_rhs => rw [hms]
    exact listRfind_concat
  unfold run_fact_check
  rw [hf, hrf]
  simp only []
  rw [slice_whole hne]
  unfold fcFromCandidate
  rw [h]

theorem rfc_located {r : List Char} {i j : Nat}
    (hf : listFind (pyStrip r) '{' = some i) (hj : listRfind (pyStrip r) '}' = some j) :
    run_fact_check r = fcFromCandidate (((pyStrip r).drop i).take (j + 1 - i)) := by
  unfold run_fact_check
  rw [hf, hj]

theorem rfc_noJson {r : List Char}
    (h : listFind (pyStrip r) '{' = none ∨ listRfind (pyStrip r) '}' = none) :
    run_fact_check r = ⟨.int 0, "Error: Could not extract JSON from response"⟩ := by
  unfold run_fact_check
  rcases h with h | h
  · rw [h]
  · rw [h]
    cases listFind (pyStrip r) '{' <;> rfl

theorem rfc_parse_error {r : List Char} {i j : Nat} {e : String}
    (hf : listFind (pyStrip r) '{' = some i) (hj : listRfind (pyStrip r) '}' = some j)
    (hp : pyJsonLoads (((pyStrip r).drop i).take (j + 1 - i)) = .error e) :
    run_fact_check r = ⟨.int 0, "Error: JSON parsing failed - " ++ e⟩ := by
  rw [rfc_located hf hj]
  unfold fcFromCandidate
  rw [hp]

theorem factValidateE_success {kvs : List (String × JValue)} {x : PyNum} {dv : JValue}
    (hs : lookupLast kvs "score" = some (.num x))
    (hd : lookupLast kvs "details" = some dv) :
    factValidateE (.obj kvs) = .ok ⟨clampScore (pyNumFloatify x),
      "Veracity Score: " ++ pyNumRepr (clampScore (pyNumFloatify x)) ++ " - " ++ pyStr dv⟩ := by
  unfold factValidateE
  simp [pyIn, hs, hd, getItem, pyFloatFn]
  rfl

theorem rfc_success {r : List Char} {i j : Nat} {kvs : List (String × JValue)}
    {x : PyNum} {dv : JValue}
    (hf : listFind (pyStrip r) '{' = some i) (hj : listRfind (pyStrip r) '}' = some j)
    (hp : pyJsonLoads (((pyStrip r).drop i).take (j + 1 - i)) = .ok (.obj kvs))
    (hs : lookupLast kvs "score" = some (.num x))
    (hd : lookupLast kvs "details" = some dv) :
    run_fact_check r = ⟨clampScore (pyNumFloatify x),
      "Veracity Score: " ++ pyNumRepr (clampScore (pyNumFloatify x)) ++ " - " ++ pyStr dv⟩ := by
  rw [rfc_located hf hj]
  unfold fcFromCandidate
  rw [hp]
  show fcValidate (JValue.obj kvs) = _
  unfold fcValidate
  rw [factValidateE_success hs hd]

theorem factValidateE_missing {kvs : List (String × JValue)}
    (h : lookupLast kvs "score" = none ∨ lookupLast kvs "details" = none) :
    factValidateE (.obj kvs) = .error "Missing required fields in response" := by
  unfold factValidateE
  rcases h with h | h
  · simp only [pyIn, h]
    rfl
  · cases hs : lookupLast kvs "score" with
    | none => simp only [pyIn, hs]; rfl
    | some sv => simp only [pyIn, hs, h]; rfl

theorem rfc_missing {r : List Char} {i j : Nat} {kvs : List (String × JValue)}
    (hf : listFind (pyStrip r) '{' = some i) (hj : listRfind (pyStrip r) '}' = some j)
    (hp : pyJsonLoads (((pyStrip r).drop i).take (j + 1 - i)) = .ok (.obj kvs))
    (h : lookupLast kvs "score" = none ∨ lookupLast kvs "details" = none) :
    run_fact_check r = ⟨.int 0, "Error during fact check: Missing required fields in response"⟩ := by
  rw [rfc_located hf hj]
  unfold fcFromCandidate
  rw [hp]
  show fcValidate (JValue.obj kvs) = _
  unfold fcValidate
  rw [factValidateE_missing h]
  rfl

theorem clampScore_bounds (x : PyNum) :
    ∃ q : ℚ, pyNumQ (clampScore x) = some q ∧ 0 ≤ q ∧ q ≤ 100 := by
  cases x with
  | int n =>
    simp only [clampScore, pyMin, pyMax, pyLt]
    split_ifs with h1 h2 h2 <;> simp_all [pyLt, pyNumQ] <;> constructor <;> linarith
  | float q =>
    simp only [clampScore, pyMin, pyMax, pyLt]
    split_ifs with h1 h2 h2 <;> simp_all [pyLt, pyNumQ] <;> constructor <;> linarith
  | nan => exact ⟨100, by simp [clampScore, pyMin, pyMax, pyLt, pyNumQ], by norm_num, by norm_num⟩
  | inf => exact ⟨100, by simp [clampScore, pyMin, pyMax, pyLt, pyNumQ], by norm_num, by norm_num⟩
  | ninf => exact ⟨0, by simp [clampScore, pyMin, pyMax, pyLt, pyNumQ], by norm_num, by norm_num⟩

theorem gc_ok_case {topic now : String} {r : List Char} {c : String} {wc : Nat}
    (h : gcBody r = .ok (c, wc)) : generate_content topic r now = .ok c topic now wc := by
  unfold generate_content
  rw [h]

theorem gc_err_case {topic now : String} {r : List Char} {e : String}
    (h : gcBody r = .error e) : generate_content topic r now = .err topic now e := by
  unfold generate_content
  rw [h]

theorem gfc_ok_case {topic now : String} {w f : List Char}
    {c st wc sc im ci : JValue}
    (h : gfcBody w f = .ok (c, st, wc, sc, im, ci)) :
    generate_factual_content topic w f now = .complete c st wc sc im ci topic now := by
  unfold generate_factual_content
  rw [h]

theorem gfc_err_case {topic now : String} {w f : List Char} {e : String}
    (h : gfcBody w f = .error e) :
    generate_factual_content topic w f now = .failed e topic now := by
  unfold generate_factual_content
  rw [h]

theorem gcBody_ok_wc {r : List Char} {c : String} {wc : Nat}
    (h : gcBody r = .ok (c, wc)) : wc = pySplitCount c.toList := by
  unfold gcBody at h
  split at h
  · split at h
    · cases h
    · split at h
      · cases h
      · split at h
        · cases h
        · split at h
          · cases h
          next c' =>
            injection h with h1
            injection h1 with h1 h2
            subst h1
            exact h2.symm
          · cases h
  · cases h

theorem gfcBody_success {w f : List Char} {kvs vkvs : List (String × JValue)} {c : JValue}
    (hw : _extract_json w = some (.obj kvs)) (hkne : kvs.isEmpty = false)
    (hc : lookupLast kvs "content" = some c)
    (hf : _extract_json f = some (.obj vkvs)) (hvne : vkvs.isEmpty = false) :
    gfcBody w f = .ok (c, (lookupLast kvs "structure").getD (.str ""),
      (lookupLast kvs "word_count").getD (.num (.int 0)),
      (lookupLast vkvs "score").getD (.num (.int 0)),
      (lookupLast vkvs "improvements").getD (.str ""),
      (lookupLast vkvs "citations").getD (.arr [])) := by
  unfold gfcBody
  rw [hw, hf]
  simp only [pyFalsy, hkne, hvne, Bool.false_eq_true, if_false, getItem, hc, pyGetE]

theorem loads_nil : pyJsonLoads ([] : List Char) = .error "Expecting value" := rfl

theorem rfc_enum (r : List Char) :
    run_fact_check r = ⟨.int 0, "Error: Could not extract JSON from response"⟩ ∨
    (∃ e, run_fact_check r = ⟨.int 0, "Error: JSON parsing failed - " ++ e⟩) ∨
    (∃ e, run_fact_check r = ⟨.int 0, "Error during fact check: " ++ e⟩) ∨
    (∃ parsed rec, factValidateE parsed = .ok rec ∧ run_fact_check r = rec) := by
  cases hf : listFind (pyStrip r) '{' with
  | none =>
    left
    exact rfc_noJson (Or.inl hf)
  | some i =>
    cases hj : listRfind (pyStrip r) '}' with
    | none =>
      left
      exact rfc_noJson (Or.inr hj)
    | some j =>
      cases hp : pyJsonLoads (((pyStrip r).drop i).take (j + 1 - i)) with
      | error e =>
        right; left
        exact ⟨e, rfc_parse_error hf hj hp⟩
      | ok parsed =>
        have hred : run_fact_check r = fcValidate parsed := by
          rw [rfc_located hf hj]
          unfold fcFromCandidate
          rw [hp]
        cases hv : factValidateE parsed with
        | error e =>
          right; right; left
          refine ⟨e, ?_⟩
          rw [hred]
          unfold fcValidate
          rw [hv]
        | ok rec =>
          right; right; right
          refine ⟨parsed, rec, hv, ?_⟩
          rw [hred]
          unfold fcValidate
          rw [hv]

/-- C1: whenever run_fact_check succeeds (the candidate substring parses
as a JSON object with a numeric score and a details value), the details
string of the returned record begins with the literal text
"Veracity Score: " followed by the rendering of the clamped score
carried in the same record, regardless of what the input details said. -/
theorem fact_check_details_lead_consistency (r : List Char) (i j : Nat)
    (kvs : List (String × JValue)) (x : PyNum) (dv : JValue)
    (hf : listFind (pyStrip r) '{' = some i)
    (hj : listRfind (pyStrip r) '}' = some j)
    (hp : pyJsonLoads (((pyStrip r).drop i).take (j + 1 - i)) = .ok (.obj kvs))
    (hs : lookupLast kvs "score" = some (.num x))
    (hd : lookupLast kvs "details" = some dv) :
    ∃ t : String,
      (run_fact_check r).details =
        ("Veracity Score: " ++ pyNumRepr ((run_fact_check r).score)) ++ t := by
  have he := rfc_success hf hj hp hs hd
  rw [he]
  exact ⟨" - " ++ pyStr dv, String.append_assoc _ _ _⟩

/-- Witness for C1 at a concrete input whose details text carries a
wrong number in the score position. -/
theorem fact_check_details_lead_consistency_witness :
    listFind (pyStrip "\x7b\"score\": 87, \"details\": \"Veracity Score: 93 - The claim checks out\"\x7d".toList) '{' = some 0 ∧
    listRfind (pyStrip "\x7b\"score\": 87, \"details\": \"Veracity Score: 93 - The claim checks out\"\x7d".toList) '}' = some 68 ∧
    (∃ t : String,
      (run_fact_check "\x7b\"score\": 87, \"details\": \"Veracity Score: 93 - The claim checks out\"\x7d".toList).details =
        ("Veracity Score: " ++ pyNumRepr ((run_fact_check "\x7b\"score\": 87, \"details\": \"Veracity Score: 93 - The claim checks out\"\x7d".toList).score)) ++ t) :=
  ⟨rfl, rfl,
    fact_check_details_lead_consistency _ 0 68
      [("score", .num (.int 87)), ("details", .str "Veracity Score: 93 - The claim checks out")]
      (.int 87) (.str "Veracity Score: 93 - The claim checks out")
      rfl rfl rfl rfl rfl⟩

/-- C2: score clamping is total and saturating: every successful
run_fact_check returns a score whose numeric value lies in [0, 100],
and the concrete inputs 150, -5 and 42.5 yield returned scores 100, 0
and 42.5 (out-of-range values saturate instead of being rejected). -/
theorem fact_check_score_clamp_total :
    (∀ (r : List Char) (i j : Nat) (kvs : List (String × JValue)) (x : PyNum) (dv : JValue),
      listFind (pyStrip r) '{' = some i →
      listRfind (pyStrip r) '}' = some j →
      pyJsonLoads (((pyStrip r).drop i).take (j + 1 - i)) = .ok (.obj kvs) →
      lookupLast kvs "score" = some (.num x) →
      lookupLast kvs "details" = some dv →
      ∃ q : ℚ, pyNumQ ((run_fact_check r).score) = some q ∧ 0 ≤ q ∧ q ≤ 100) ∧
    run_fact_check "\x7b\"score\": 150, \"details\": \"x\"\x7d".toList =
      ⟨.int 100, "Veracity Score: 100 - x"⟩ ∧
    run_fact_check "\x7b\"score\": -5, \"details\": \"x\"\x7d".toList =
      ⟨.int 0, "Veracity Score: 0 - x"⟩ ∧
    run_fact_check "\x7b\"score\": 42.5, \"details\": \"x\"\x7d".toList =
      ⟨.float (mkRat 85 2), "Veracity Score: 42.5 - x"⟩ ∧
    (mkRat 85 2 : ℚ) = 42.5 := by
  refine ⟨?_, by rfl, by rfl, by decide, by rw [Rat.mkRat_eq_div]; norm_num⟩
  intro r i j kvs x dv hf hj hp hs hd
  rw [rfc_success hf hj hp hs hd]
  exact clampScore_bounds (pyNumFloatify x)

/-- Witness for the universally quantified part of C2. -/
theorem fact_check_score_clamp_total_witness :
    listFind (pyStrip "\x7b\"score\": 150, \"details\": \"x\"\x7d".toList) '{' = some 0 ∧
    (∃ q : ℚ,
      pyNumQ ((run_fact_check "\x7b\"score\": 150, \"details\": \"x\"\x7d".toList).score) = some q ∧
      0 ≤ q ∧ q ≤ 100) :=
  ⟨rfl,
    fact_check_score_clamp_total.1 _ 0 29
      [("score", .num (.int 150)), ("details", .str "x")] (.int 150) (.str "x")
      rfl rfl rfl rfl rfl⟩

/-- C3 counterexample: on an input whose details already carry a
"Veracity Score: ..." prefix with a wrong number, run_fact_check does
not discard that prefix: the returned details contains the corrected
prefix followed by the stale "Veracity Score: 93" text, so the stale
number survives and the prefix occurs twice. -/
theorem fact_check_stale_score_retained_cex :
    run_fact_check "\x7b\"score\": 87, \"details\": \"Veracity Score: 93 - The claim checks out\"\x7d".toList =
      ⟨.float (mkRat 87 1),
        "Veracity Score: 87.0 - Veracity Score: 93 - The claim checks out"⟩ ∧
    containsSub "Veracity Score: 93".toList
      "Veracity Score: 87.0 - Veracity Score: 93 - The claim checks out".toList = true := by
  exact ⟨by decide, by decide⟩

/-- C3 amended: the repair step never discards an existing
"Veracity Score: ..." prefix and never splits on a "-" separator; it
unconditionally prepends the corrected prefix, keeping the extracted
details (stale prefix included) verbatim after it. -/
theorem fact_check_unconditional_prepend (r : List Char) (i j : Nat)
    (kvs : List (String × JValue)) (x : PyNum) (dv : JValue)
    (hf : listFind (pyStrip r) '{' = some i)
    (hj : listRfind (pyStrip r) '}' = some j)
    (hp : pyJsonLoads (((pyStrip r).drop i).take (j + 1 - i)) = .ok (.obj kvs))
    (hs : lookupLast kvs "score" = some (.num x))
    (hd : lookupLast kvs "details" = some dv) :
    run_fact_check r = ⟨clampScore (pyNumFloatify x),
      "Veracity Score: " ++ pyNumRepr (clampScore (pyNumFloatify x)) ++ " - " ++ pyStr dv⟩ :=
  rfc_success hf hj hp hs hd

/-- Witness for the amended C3 at the stale-prefix input. -/
theorem fact_check_unconditional_prepend_witness :
    listFind (pyStrip "\x7b\"score\": 87, \"details\": \"Veracity Score: 93 - The claim checks out\"\x7d".toList) '{' = some 0 ∧
    run_fact_check "\x7b\"score\": 87, \"details\": \"Veracity Score: 93 - The claim checks out\"\x7d".toList =
      ⟨clampScore (pyNumFloatify (.int 87)),
        "Veracity Score: " ++ pyNumRepr (clampScore (pyNumFloatify (.int 87))) ++ " - " ++
          pyStr (.str "Veracity Score: 93 - The claim checks out")⟩ :=
  ⟨rfl,
    fact_check_unconditional_prepend _ 0 68
      [("score", .num (.int 87)), ("details", .str "Veracity Score: 93 - The claim checks out")]
      (.int 87) (.str "Veracity Score: 93 - The claim checks out")
      rfl rfl rfl rfl rfl⟩

/-- C8: an extracted object lacking the key score or the key details
makes run_fact_check return the missing-required-fields failure record
(score 0), and no exception escapes. -/
theorem fact_check_missing_field (r : List Char) (i j : Nat)
    (kvs : List (String × JValue))
    (hf : listFind (pyStrip r) '{' = some i)
    (hj : listRfind (pyStrip r) '}' = some j)
    (hp : pyJsonLoads (((pyStrip r).drop i).take (j + 1 - i)) = .ok (.obj kvs))
    (h : lookupLast kvs "score" = none ∨ lookupLast kvs "details" = none) :
    run_fact_check r =
      ⟨.int 0, "Error during fact check: Missing required fields in response"⟩ :=
  rfc_missing hf hj hp h

/-- Witness for C8 at the spec's example input. -/
theorem fact_check_missing_field_witness :
    listFind (pyStrip "\x7b\"foo\":\"bar\"\x7d".toList) '{' = some 0 ∧
    run_fact_check "\x7b\"foo\":\"bar\"\x7d".toList =
      ⟨.int 0, "Error during fact check: Missing required fields in response"⟩ :=
  ⟨rfl,
    fact_check_missing_field _ 0 12 [("foo", .str "bar")] rfl rfl rfl (Or.inl rfl)⟩

/-- C9: when the entire stripped response parses as a JSON object, the
boundary step is the identity: run_fact_check returns exactly the
record built by validating that object, nothing lost or altered. -/
theorem whole_trimmed_object_accepted (r : List Char) (kvs : List (String × JValue))
    (h : pyJsonLoads (pyStrip r) = .ok (.obj kvs)) :
    run_fact_check r = fcValidate (.obj kvs) :=
  rfc_whole_parse h

/-- Witness for C9 on a fenced-free response with surrounding blanks. -/
theorem whole_trimmed_object_accepted_witness :
    pyJsonLoads (pyStrip "  \x7b\"score\": 50, \"details\": \"ok\"\x7d  ".toList) =
      .ok (.obj [("score", .num (.int 50)), ("details", .str "ok")]) ∧
    run_fact_check "  \x7b\"score\": 50, \"details\": \"ok\"\x7d  ".toList =
      fcValidate (.obj [("score", .num (.int 50)), ("details", .str "ok")]) ∧
    fcValidate (.obj [("score", .num (.int 50)), ("details", .str "ok")]) =
      ⟨.float (mkRat 50 1), "Veracity Score: 50.0 - ok"⟩ :=
  ⟨rfl,
    whole_trimmed_object_accepted _ [("score", .num (.int 50)), ("details", .str "ok")] rfl,
    by decide⟩

/-- C6 counterexample: the candidate of this input fails the strict
parse only because of a raw newline inside a string literal; collapsing
newlines to spaces (the normalization the spec promises) makes it parse,
yet run_fact_check reports the JSON-parsing failure immediately: no
normalization or retry happens. -/
theorem no_retry_normalization_cex :
    run_fact_check "\x7b\"score\": 5, \"details\": \"a\nb\"\x7d".toList =
      ⟨.int 0, "Error: JSON parsing failed - Invalid control character"⟩ ∧
    pyJsonLoads (specCollapseNewlines "\x7b\"score\": 5, \"details\": \"a\nb\"\x7d".toList) =
      .ok (.obj [("score", .num (.int 5)), ("details", .str "a b")]) := by
  exact ⟨by decide, by rfl⟩

/-- C6 amended: the parser performs exactly one strict parse of the
candidate substring; when it fails, run_fact_check returns the
JSON-parsing-failure record carrying the parser message, with no
normalization pass and no retry. -/
theorem single_strict_parse_no_retry (r : List Char) (i j : Nat) (e : String)
    (hf : listFind (pyStrip r) '{' = some i)
    (hj : listRfind (pyStrip r) '}' = some j)
    (hp : pyJsonLoads (((pyStrip r).drop i).take (j + 1 - i)) = .error e) :
    run_fact_check r = ⟨.int 0, "Error: JSON parsing failed - " ++ e⟩ :=
  rfc_parse_error hf hj hp

/-- Witness for the amended C6 at the newline input. -/
theorem single_strict_parse_no_retry_witness :
    pyJsonLoads (((pyStrip "\x7b\"score\": 5, \"details\": \"a\nb\"\x7d".toList).drop 0).take (29 + 1 - 0)) =
      .error "Invalid control character" ∧
    run_fact_check "\x7b\"score\": 5, \"details\": \"a\nb\"\x7d".toList =
      ⟨.int 0, "Error: JSON parsing failed - " ++ "Invalid control character"⟩ :=
  ⟨rfl,
    single_strict_parse_no_retry _ 0 29 "Invalid control character" rfl rfl rfl⟩

/-- C10: when both braces occur but the last closing brace precedes the
first opening brace, the boundary check passes, the slice is empty, the
parse fails, and the returned record is the JSON-parsing-failure record
with score 0 - not the no-JSON-found record. -/
theorem reversed_braces_parse_failure (r : List Char) (i j : Nat)
    (hf : listFind (pyStrip r) '{' = some i)
    (hj : listRfind (pyStrip r) '}' = some j)
    (hlt : j < i) :
    run_fact_check r = ⟨.int 0, "Error: JSON parsing failed - " ++ "Expecting value"⟩ ∧
    (∃ t : String,
      (run_fact_check r).details = "Error: JSON parsing failed" ++ t) := by
  have hslice : ((pyStrip r).drop i).take (j + 1 - i) = [] := by
    rw [Nat.sub_eq_zero_of_le (by omega)]
    exact List.take_zero _
  have he := rfc_parse_error hf hj (by rw [hslice]; exact loads_nil)
  refine ⟨he, ⟨" - " ++ "Expecting value", ?_⟩⟩
  rw [he]
  decide

/-- Witness for C10 at the spec's example input. -/
theorem reversed_braces_parse_failure_witness :
    listFind (pyStrip "\x7d and then \x7b".toList) '{' = some 11 ∧
    listRfind (pyStrip "\x7d and then \x7b".toList) '}' = some 0 ∧
    (0 : Nat) < 11 ∧
    run_fact_check "\x7d and then \x7b".toList =
      ⟨.int 0, "Error: JSON parsing failed - " ++ "Expecting value"⟩ :=
  ⟨rfl, rfl, by decide,
    (reversed_braces_parse_failure "\x7d and then \x7b".toList 11 0 rfl rfl (by decide)).1⟩

/-- C5: every public operation returns a tagged record and never lets
an exception propagate: generate_content and generate_factual_content
return the success form of their body or the failure record built from
the caught exception text, and every run_fact_check output is one of
the four explicit record forms (no-JSON failure, parse failure, caught
exception failure, or a validated success record). -/
theorem ops_return_tagged_results :
    (∀ (topic now : String) (r : List Char),
      (∃ c wc, gcBody r = .ok (c, wc) ∧ generate_content topic r now = .ok c topic now wc) ∨
      (∃ e, gcBody r = .error e ∧ generate_content topic r now = .err topic now e)) ∧
    (∀ (topic now : String) (w f : List Char),
      (∃ c st wc sc im ci, gfcBody w f = .ok (c, st, wc, sc, im, ci) ∧
        generate_factual_content topic w f now = .complete c st wc sc im ci topic now) ∨
      (∃ e, gfcBody w f = .error e ∧
        generate_factual_content topic w f now = .failed e topic now)) ∧
    (∀ r : List Char,
      run_fact_check r = ⟨.int 0, "Error: Could not extract JSON from response"⟩ ∨
      (∃ e, run_fact_check r = ⟨.int 0, "Error: JSON parsing failed - " ++ e⟩) ∨
      (∃ e, run_fact_check r = ⟨.int 0, "Error during fact check: " ++ e⟩) ∨
      (∃ parsed rec, factValidateE parsed = .ok rec ∧ run_fact_check r = rec)) := by
  refine ⟨?_, ?_, rfc_enum⟩
  · intro topic now r
    cases hb : gcBody r with
    | ok p =>
      obtain ⟨c, wc⟩ := p
      exact Or.inl ⟨c, wc, rfl, gc_ok_case hb⟩
    | error e => exact Or.inr ⟨e, rfl, gc_err_case hb⟩
  · intro topic now w f
    cases hb : gfcBody w f with
    | ok p =>
      obtain ⟨c, st, wc, sc, im, ci⟩ := p
      exact Or.inl ⟨c, st, wc, sc, im, ci, rfl, gfc_ok_case hb⟩
    | error e => exact Or.inr ⟨e, rfl, gfc_err_case hb⟩

/-- C4 counterexample: on an input with no JSON at all (a failing
boundary stage), run_fact_check returns the dict
`{"score": 0, "details": ...}`: it has no "status", "error" or
"metadata" key, so the failure is not the claimed
`{status: FAILED, error, metadata}` shape. -/
theorem failure_shape_cex :
    run_fact_check "I cannot comply with this request.".toList =
      ⟨.int 0, "Error: Could not extract JSON from response"⟩ ∧
    List.lookup "status"
      (run_fact_check "I cannot comply with this request.".toList).toDict = none ∧
    List.lookup "error"
      (run_fact_check "I cannot comply with this request.".toList).toDict = none ∧
    List.lookup "metadata"
      (run_fact_check "I cannot comply with this request.".toList).toDict = none := by
  exact ⟨by decide, rfl, rfl, rfl⟩

/-- C4 amended: only generate_factual_content produces the FailureRecord
shape {status: FAILED, error, metadata: {topic, timestamp}} (with no
stale prior-stage data); run_fact_check failures return
{score: 0, details}, and generate_content failures return
{content: error text, metadata: {topic, timestamp, error}}. -/
theorem failure_record_shapes :
    (∀ (topic now : String) (w f : List Char) (e : String),
      gfcBody w f = .error e →
      (generate_factual_content topic w f now).toDict =
        [("status", .str "FAILED"), ("error", .str e),
         ("metadata", .obj [("topic", .str topic), ("timestamp", .str now)])]) ∧
    (∀ (topic now : String) (r : List Char) (e : String),
      gcBody r = .error e →
      (generate_content topic r now).toDict =
        [("content", .str ("Error generating content: " ++ e)),
         ("metadata", .obj [("topic", .str topic), ("timestamp", .str now),
                            ("error", .str e)])]) ∧
    (∀ r : List Char,
      List.lookup "status" (run_fact_check r).toDict = none ∧
      List.lookup "metadata" (run_fact_check r).toDict = none ∧
      (run_fact_check r).toDict =
        [("score", .num (run_fact_check r).score),
         ("details", .str (run_fact_check r).details)]) := by
  refine ⟨?_, ?_, ?_⟩
  · intro topic now w f e h
    rw [gfc_err_case h]
    rfl
  · intro topic now r e h
    rw [gc_err_case h]
    rfl
  · intro r
    exact ⟨rfl, rfl, rfl⟩

/-- Witness for the amended C4 on concrete failing inputs. -/
theorem failure_record_shapes_witness :
    gfcBody "no json".toList "also none".toList =
      .error "Failed to parse content generation output" ∧
    (generate_factual_content "t" "no json".toList "also none".toList "ts").toDict =
      [("status", .str "FAILED"), ("error", .str "Failed to parse content generation output"),
       ("metadata", .obj [("topic", .str "t"), ("timestamp", .str "ts")])] ∧
    gcBody "no json".toList = .error "No JSON object found in response" ∧
    (generate_content "t" "no json".toList "ts").toDict =
      [("content", .str ("Error generating content: " ++ "No JSON object found in response")),
       ("metadata", .obj [("topic", .str "t"), ("timestamp", .str "ts"),
                          ("error", .str "No JSON object found in response")])] :=
  ⟨rfl,
    failure_record_shapes.1 "t" "ts" "no json".toList "also none".toList
      "Failed to parse content generation output" rfl,
    rfl,
    failure_record_shapes.2.1 "t" "ts" "no json".toList
      "No JSON object found in response" rfl⟩

/-- C7 counterexample: generate_factual_content with parsed content
`{"content": "one two three"}` (no upstream word_count) returns
word_count 0, not the 3 whitespace-separated tokens the claim
promises, because the code takes `content_json.get("word_count", 0)`
instead of splitting. -/
theorem factual_word_count_not_derived_cex :
    (generate_factual_content "t" "\x7b\"content\": \"one two three\"\x7d".toList
        "\x7b\"score\": 80\x7d".toList "ts").wordCountField = some (.num (.int 0)) ∧
    pySplitCount "one two three".toList = 3 ∧
    (JValue.num (.int 0) ≠ JValue.num (.int 3)) := by
  refine ⟨rfl, by decide, by simp⟩

/-- C7 amended: generate_content derives word_count locally by splitting
the returned content on whitespace; generate_factual_content instead
passes through the upstream word_count, defaulting to 0 when the parsed
object lacks the key - it never derives the count by splitting. -/
theorem word_count_semantics :
    (∀ (topic now : String) (r : List Char) (c : String) (wc : Nat),
      gcBody r = .ok (c, wc) →
      generate_content topic r now = .ok c topic now (pySplitCount c.toList)) ∧
    (∀ (topic now : String) (w f : List Char) (kvs vkvs : List (String × JValue)) (c : JValue),
      _extract_json w = some (.obj kvs) → kvs.isEmpty = false →
      lookupLast kvs "content" = some c →
      lookupLast kvs "word_count" = none →
      _extract_json f = some (.obj vkvs) → vkvs.isEmpty = false →
      ∃ st sc im ci,
        generate_factual_content topic w f now =
          .complete c st (.num (.int 0)) sc im ci topic now) := by
  refine ⟨?_, ?_⟩
  · intro topic now r c wc h
    have hwc := gcBody_ok_wc h
    rw [gc_ok_case h, hwc]
  · intro topic now w f kvs vkvs c hw hkne hc hwcnone hf hvne
    have hb := gfcBody_success hw hkne hc hf hvne
    rw [hwcnone] at hb
    exact ⟨_, _, _, _, gfc_ok_case hb⟩

/-- Witness for the amended C7 on concrete inputs for both operations. -/
theorem word_count_semantics_witness :
    gcBody "\x7b\"content\":\"one two three\"\x7d".toList = .ok ("one two three", 3) ∧
    generate_content "t" "\x7b\"content\":\"one two three\"\x7d".toList "ts" =
      .ok "one two three" "t" "ts" (pySplitCount "one two three".toList) ∧
    _extract_json "\x7b\"content\": \"one two three\"\x7d".toList =
      some (.obj [("content", .str "one two three")]) ∧
    (∃ st sc im ci,
      generate_factual_content "t" "\x7b\"content\": \"one two three\"\x7d".toList
          "\x7b\"score\": 80\x7d".toList "ts" =
        .complete (.str "one two three") st (.num (.int 0)) sc im ci "t" "ts") :=
  ⟨rfl,
    word_count_semantics.1 "t" "ts" _ "one two three" 3 rfl,
    rfl,
    word_count_semantics.2 "t" "ts" _ _ [("content", .str "one two three")]
      [("score", .num (.int 80))] (.str "one two three") rfl rfl rfl rfl rfl rfl⟩
